import Mathlib

/-!
Shallow embedding of the Solana Human Protocol escrow program
(`program/src/{state,instruction,processor,error}.rs`) and proofs about it.

Machine integers are modelled as `Nat`; `u64` arithmetic that can overflow is
taken modulo `2 ^ 64` (Solana BPF programs are release builds, where Rust's
`+` wraps).  An account's data is modelled as the decoded record it holds;
fallible Rust functions returning `Result<_, ProgramError>` become `Except`.
The SPL token transfer, the clock sysvar and program-address derivation are
external ledger interfaces: transfers are recorded as a list of
(destination, amount) pairs, the clock is a plain `Int` argument, and
`create_program_address` is modelled as an injective deterministic function
of its seed material.
-/

set_option maxRecDepth 16000

namespace HumanEscrow

/-- Modulus of Rust `u64` arithmetic. -/
def U64MOD : Nat := 2 ^ 64

/-- A ledger public key (`solana_program::pubkey::Pubkey`): an opaque byte
array compared byte-wise. -/
structure Pubkey where
  bytes : List Nat
deriving DecidableEq, Repr

/-- `Pubkey::default()`: the all-zero 32-byte key. -/
def Pubkey.zero : Pubkey := ⟨List.replicate 32 0⟩

/-- Domain error codes of `error.rs` (`EscrowError`), in declaration order. -/
inductive EscrowError
  | UnauthorizedSigner
  | EscrowExpired
  | StakeOutOfBounds
  | TokenAccountAuthority
  | WrongTokenMint
  | WrongState
  | NotEnoughBalance
  | OracleNotInitialized
  | TooManyPayouts
  | FactoryNotInitialized
deriving DecidableEq, Repr

/-- The discriminant of an `EscrowError` (`e as u32`). -/
def EscrowError.code : EscrowError → Nat
  | .UnauthorizedSigner => 0
  | .EscrowExpired => 1
  | .StakeOutOfBounds => 2
  | .TokenAccountAuthority => 3
  | .WrongTokenMint => 4
  | .WrongState => 5
  | .NotEnoughBalance => 6
  | .OracleNotInitialized => 7
  | .TooManyPayouts => 8
  | .FactoryNotInitialized => 9

/-- The generic ledger error channel (`solana_program::program_error`),
restricted to the variants this program produces. -/
inductive ProgramError
  | MissingRequiredSignature
  | UninitializedAccount
  | InvalidInstructionData
  | InvalidAccountData
  | AccountAlreadyInitialized
  | IncorrectProgramId
  | Custom (code : Nat)
deriving DecidableEq, Repr

/-- `impl From<EscrowError> for ProgramError` in `error.rs`:
`ProgramError::Custom(BASE_ERROR_CODE + e as u32)` with `BASE_ERROR_CODE = 0x100`. -/
def EscrowError.toProgram (e : EscrowError) : ProgramError :=
  ProgramError.Custom (256 + e.code)

/-- The escrow lifecycle states of `state.rs` (`EscrowState`). -/
inductive EscrowState
  | Uninitialized
  | Launched
  | Pending
  | Partial
  | Paid
  | Complete
  | Cancelled
deriving DecidableEq, Repr

/-- The byte discriminant of a state (`state as u8`, declaration order). -/
def EscrowState.toTag : EscrowState → Nat
  | .Uninitialized => 0
  | .Launched => 1
  | .Pending => 2
  | .Partial => 3
  | .Paid => 4
  | .Complete => 5
  | .Cancelled => 6

/-- `EscrowState::try_from_primitive`, with the `.or(Err(InvalidAccountData))`
mapping applied at the one call site in `Escrow::unpack_from_slice`. -/
def EscrowState.try_from_primitive (b : Nat) : Except ProgramError EscrowState :=
  match b with
  | 0 => .ok .Uninitialized
  | 1 => .ok .Launched
  | 2 => .ok .Pending
  | 3 => .ok .Partial
  | 4 => .ok .Paid
  | 5 => .ok .Complete
  | 6 => .ok .Cancelled
  | _ => .error ProgramError.InvalidAccountData

/-- `Factory` account record of `state.rs`. -/
structure Factory where
  version : Nat
deriving DecidableEq, Repr

/-- `Factory::is_initialized`: version differs from
`UNINITIALIZED_FACTORY_VERSION = 0`. -/
def Factory.is_initialized (f : Factory) : Bool :=
  f.version != 0

/-- The `Escrow` account record of `state.rs`.  `COption<Pubkey>` becomes
`Option Pubkey`; the `DataUrl` / `DataHash` value types become their byte
lists (a `DataUrl` is 256 bytes, a `DataHash` 20). -/
structure Escrow where
  state : EscrowState
  factory : Pubkey
  expires : Int
  bump_seed : Nat
  token_mint : Pubkey
  token_account : Pubkey
  reputation_oracle : Option Pubkey
  reputation_oracle_token_account : Option Pubkey
  reputation_oracle_stake : Nat
  recording_oracle : Option Pubkey
  recording_oracle_token_account : Option Pubkey
  recording_oracle_stake : Nat
  launcher : Pubkey
  canceler : Pubkey
  canceler_token_account : Pubkey
  total_amount : Nat
  total_recipients : Nat
  sent_amount : Nat
  sent_recipients : Nat
  manifest_url : List Nat
  manifest_hash : List Nat
  final_results_url : List Nat
  final_results_hash : List Nat
deriving DecidableEq, Repr

/-- `Escrow::default()` (the `#[derive(Default)]` of `state.rs`): state
`Uninitialized`, zero keys and counters, zero-filled URL and hash buffers. -/
def Escrow.default : Escrow where
  state := .Uninitialized
  factory := Pubkey.zero
  expires := 0
  bump_seed := 0
  token_mint := Pubkey.zero
  token_account := Pubkey.zero
  reputation_oracle := none
  reputation_oracle_token_account := none
  reputation_oracle_stake := 0
  recording_oracle := none
  recording_oracle_token_account := none
  recording_oracle_stake := 0
  launcher := Pubkey.zero
  canceler := Pubkey.zero
  canceler_token_account := Pubkey.zero
  total_amount := 0
  total_recipients := 0
  sent_amount := 0
  sent_recipients := 0
  manifest_url := List.replicate 256 0
  manifest_hash := List.replicate 20 0
  final_results_url := List.replicate 256 0
  final_results_hash := List.replicate 20 0

/-- `Escrow::is_initialized`: the state is not `Uninitialized`. -/
def Escrow.is_initialized (e : Escrow) : Bool :=
  e.state != EscrowState.Uninitialized

/-- The fields of an SPL token account (`spl_token::state::Account`) that the
processor reads: its mint, its owner and its balance. -/
structure TokenAccount where
  mint : Pubkey
  owner : Pubkey
  amount : Nat
deriving DecidableEq, Repr

/-- An account presented as the invoking party: its key and whether it signed
the transaction (`AccountInfo::{key, is_signer}`). -/
structure Handler where
  key : Pubkey
  is_signer : Bool
deriving DecidableEq, Repr

/-- `Pubkey::create_program_address` (`Processor::authority_id`): external
ledger cryptography, modelled as an injective deterministic function of the
seed material (escrow key bytes and bump seed) and the program id.  The
library function's rare failure branch (seed lands on the ed25519 curve) is
not modelled; no claim depends on it. -/
def authority_id (escrow_program_id escrow_account_key : Pubkey) (bump_seed : Nat) : Pubkey :=
  ⟨escrow_program_id.bytes ++ escrow_account_key.bytes ++ [bump_seed]⟩

/-- `Pubkey::find_program_address` (`Processor::find_authority_bump_seed`):
deterministic bump search from the top of the nonce space, modelled as always
succeeding at 255 (the first candidate). -/
def find_authority_bump_seed (escrow_program_id escrow_account_key : Pubkey) : Pubkey × Nat :=
  (authority_id escrow_program_id escrow_account_key 255, 255)

/-- `Processor::check_trusted_handler`: the invoking account must have signed
and be the launcher, the canceler, or one of the two oracles when set. -/
def check_trusted_handler (escrow : Escrow) (handler : Handler) : Except ProgramError Unit :=
  if handler.is_signer = false then .error ProgramError.MissingRequiredSignature
  else if handler.key = escrow.launcher then .ok ()
  else if handler.key = escrow.canceler then .ok ()
  else if escrow.reputation_oracle = some handler.key then .ok ()
  else if escrow.recording_oracle = some handler.key then .ok ()
  else .error (EscrowError.UnauthorizedSigner.toProgram)

/-- `Processor::get_escrow_with_state_check`: initialized, unexpired
(the check is `escrow.expires < clock.unix_timestamp`, so the escrow is still
accepted when `now = expires`), state in the allowed set, invoker a trusted
handler. -/
def get_escrow_with_state_check (escrow : Escrow) (now : Int) (handler : Handler)
    (allowed_states : List EscrowState) : Except ProgramError Escrow :=
  if escrow.is_initialized = false then .error ProgramError.UninitializedAccount
  else if escrow.expires < now then .error (EscrowError.EscrowExpired.toProgram)
  else if allowed_states.contains escrow.state = false then
    .error (EscrowError.WrongState.toProgram)
  else
    match check_trusted_handler escrow handler with
    | .error e => .error e
    | .ok _ => .ok escrow

/-- `Processor::process_initialize`.  Note that it performs no signer check at
all: it validates only the factory, the duration and the two token accounts,
then writes a fresh `Launched` record over the uninitialized one
(`..Default::default()` zeroes every unset field, the `factory` link
included). -/
def process_initialize (program_id escrow_key : Pubkey) (escrow : Escrow) (factory : Factory)
    (now : Int) (token_mint_key token_account_key : Pubkey) (token_account : TokenAccount)
    (launcher_key canceler_key canceler_token_account_key : Pubkey)
    (canceler_token_account : TokenAccount) (duration : Nat) : Except ProgramError Escrow :=
  if escrow.is_initialized = true then .error ProgramError.AccountAlreadyInitialized
  else if factory.is_initialized = false then .error (EscrowError.FactoryNotInitialized.toProgram)
  else if duration = 0 then .error (EscrowError.EscrowExpired.toProgram)
  else
    match find_authority_bump_seed program_id escrow_key with
    | (authority_key, bump_seed) =>
      if token_account.owner ≠ authority_key then
        .error (EscrowError.TokenAccountAuthority.toProgram)
      else if token_account.mint ≠ token_mint_key then
        .error (EscrowError.WrongTokenMint.toProgram)
      else if canceler_token_account.mint ≠ token_mint_key then
        .error (EscrowError.WrongTokenMint.toProgram)
      else .ok { Escrow.default with
        state := .Launched
        expires := now + (duration : Int)
        bump_seed := bump_seed
        token_mint := token_mint_key
        token_account := token_account_key
        launcher := launcher_key
        canceler := canceler_key
        canceler_token_account := canceler_token_account_key }

/-- `u8::checked_add` on two byte values. -/
def checked_add_u8 (a b : Nat) : Option Nat :=
  if a + b ≤ 255 then some (a + b) else none

/-- `Processor::process_setup`: from `Launched`, validates the stake sum and
both oracle token-account mints, stores the oracle identities, stakes and
manifest fields, and moves to `Pending`.  A stake sum that overflows the `u8`
addition fails with `InvalidInstructionData` (the `ok_or` on `checked_add`);
a sum of 0 or above 100 fails with `StakeOutOfBounds`. -/
def process_setup (escrow : Escrow) (now : Int) (handler : Handler)
    (reputation_oracle_key reputation_oracle_token_account_key : Pubkey)
    (reputation_oracle_token_account : TokenAccount)
    (recording_oracle_key recording_oracle_token_account_key : Pubkey)
    (recording_oracle_token_account : TokenAccount)
    (reputation_oracle_stake recording_oracle_stake : Nat)
    (manifest_url manifest_hash : List Nat) : Except ProgramError Escrow :=
  match get_escrow_with_state_check escrow now handler [.Launched] with
  | .error e => .error e
  | .ok esc =>
    match checked_add_u8 reputation_oracle_stake recording_oracle_stake with
    | none => .error ProgramError.InvalidInstructionData
    | some total_stake =>
      if total_stake = 0 ∨ 100 < total_stake then
        .error (EscrowError.StakeOutOfBounds.toProgram)
      else if reputation_oracle_token_account.mint ≠ esc.token_mint then
        .error (EscrowError.WrongTokenMint.toProgram)
      else if recording_oracle_token_account.mint ≠ esc.token_mint then
        .error (EscrowError.WrongTokenMint.toProgram)
      else .ok { esc with
        reputation_oracle := some reputation_oracle_key
        reputation_oracle_token_account := some reputation_oracle_token_account_key
        reputation_oracle_stake := reputation_oracle_stake
        recording_oracle := some recording_oracle_key
        recording_oracle_token_account := some recording_oracle_token_account_key
        recording_oracle_stake := recording_oracle_stake
        manifest_url := manifest_url
        manifest_hash := manifest_hash
        state := .Pending }

/-- `Processor::process_store_results`: from `Pending` or `Partial`, stores
the final-results URL and hash; no state change. -/
def process_store_results (escrow : Escrow) (now : Int) (handler : Handler)
    (final_results_url final_results_hash : List Nat) : Except ProgramError Escrow :=
  match get_escrow_with_state_check escrow now handler [.Pending, .Partial] with
  | .error e => .error e
  | .ok esc => .ok { esc with
      final_results_url := final_results_url
      final_results_hash := final_results_hash }

/-- `Processor::process_store_amounts` (`StoreFinalAmounts`): from `Pending`
or `Partial`, overwrites `total_amount` and `total_recipients` with the given
values — without comparing them against the `sent_*` counters. -/
def process_store_amounts (escrow : Escrow) (now : Int) (handler : Handler)
    (total_amount total_recipients : Nat) : Except ProgramError Escrow :=
  match get_escrow_with_state_check escrow now handler [.Pending, .Partial] with
  | .error e => .error e
  | .ok esc => .ok { esc with
      total_amount := total_amount
      total_recipients := total_recipients }

/-- The oracle fee of `Processor::process_payout`:
`amount.checked_mul(stake).unwrap_or(0).checked_div(100).unwrap_or(0)` —
the product saturates to zero on `u64` overflow and the truncating division
by 100 never fails. -/
def oracle_fee_amount (amount stake : Nat) : Nat :=
  (if amount * stake < U64MOD then amount * stake else 0) / 100

/-- `Processor::process_payout`: from `Pending` or `Partial`, after the common
checks validates the custody account, both oracle token accounts (failing
with `OracleNotInitialized` when unset) and the derived authority, the
custody balance and the running totals, then issues up to three transfers
(zero amounts skipped), bumps the `sent_*` counters (`u64` wrap-around
addition) and moves to `Paid` exactly when both counters now equal the
totals, else `Partial`.  The result pairs the new record with the issued
transfers as (destination, amount). -/
def process_payout (program_id escrow_key : Pubkey) (escrow : Escrow) (now : Int)
    (handler : Handler)
    (token_account_key authority_key recipient_token_account_key
      reputation_oracle_token_account_key recording_oracle_token_account_key : Pubkey)
    (token_account : TokenAccount) (amount : Nat) :
    Except ProgramError (Escrow × List (Pubkey × Nat)) :=
  match get_escrow_with_state_check escrow now handler [.Pending, .Partial] with
  | .error e => .error e
  | .ok esc =>
    if token_account_key ≠ esc.token_account then .error ProgramError.InvalidInstructionData
    else
      match esc.reputation_oracle_token_account with
      | none => .error (EscrowError.OracleNotInitialized.toProgram)
      | some rep_tok =>
        if reputation_oracle_token_account_key ≠ rep_tok then
          .error ProgramError.InvalidInstructionData
        else
          match esc.recording_oracle_token_account with
          | none => .error (EscrowError.OracleNotInitialized.toProgram)
          | some rec_tok =>
            if recording_oracle_token_account_key ≠ rec_tok then
              .error ProgramError.InvalidInstructionData
            else if authority_key ≠ authority_id program_id escrow_key esc.bump_seed then
              .error ProgramError.InvalidInstructionData
            else if token_account.amount < amount then
              .error (EscrowError.NotEnoughBalance.toProgram)
            else if esc.total_amount < (esc.sent_amount + amount) % U64MOD
                ∨ esc.total_recipients < (esc.sent_recipients + 1) % U64MOD then
              .error (EscrowError.TooManyPayouts.toProgram)
            else
              let reputation_oracle_fee := oracle_fee_amount amount esc.reputation_oracle_stake
              let recording_oracle_fee := oracle_fee_amount amount esc.recording_oracle_stake
              let recipient_amount := amount - reputation_oracle_fee - recording_oracle_fee
              let transfers :=
                (if recipient_amount ≠ 0 then
                  [(recipient_token_account_key, recipient_amount)] else [])
                ++ (if reputation_oracle_fee ≠ 0 then
                  [(rep_tok, reputation_oracle_fee)] else [])
                ++ (if recording_oracle_fee ≠ 0 then
                  [(rec_tok, recording_oracle_fee)] else [])
              let new_sent_amount := (esc.sent_amount + amount) % U64MOD
              let new_sent_recipients := (esc.sent_recipients + 1) % U64MOD
              .ok ({ esc with
                  sent_amount := new_sent_amount
                  sent_recipients := new_sent_recipients
                  state :=
                    if new_sent_recipients = esc.total_recipients
                        ∧ new_sent_amount = esc.total_amount then
                      EscrowState.Paid
                    else EscrowState.Partial },
                transfers)

/-- `Processor::process_cancel`: reads no clock; requires an initialized
record whose state is neither `Complete` nor `Paid`, a trusted handler, the
recorded custody / canceler-token / authority accounts, and a nonzero custody
balance; transfers the whole balance to the canceler token account and sets
`Cancelled`. -/
def process_cancel (program_id escrow_key : Pubkey) (escrow : Escrow) (handler : Handler)
    (token_account_key authority_key canceler_token_account_key : Pubkey)
    (token_account : TokenAccount) : Except ProgramError (Escrow × List (Pubkey × Nat)) :=
  if escrow.is_initialized = false then .error ProgramError.UninitializedAccount
  else if escrow.state = EscrowState.Complete ∨ escrow.state = EscrowState.Paid then
    .error (EscrowError.WrongState.toProgram)
  else
    match check_trusted_handler escrow handler with
    | .error e => .error e
    | .ok _ =>
      if token_account_key ≠ escrow.token_account
          ∨ canceler_token_account_key ≠ escrow.canceler_token_account
          ∨ authority_key ≠ authority_id program_id escrow_key escrow.bump_seed then
        .error ProgramError.InvalidInstructionData
      else if token_account.amount = 0 then
        .error (EscrowError.NotEnoughBalance.toProgram)
      else .ok ({ escrow with state := .Cancelled },
        [(canceler_token_account_key, token_account.amount)])

/-- `Processor::process_complete`: from `Paid`, sets `Complete`. -/
def process_complete (escrow : Escrow) (now : Int) (handler : Handler) :
    Except ProgramError Escrow :=
  match get_escrow_with_state_check escrow now handler [.Paid] with
  | .error e => .error e
  | .ok esc => .ok { esc with state := .Complete }

/-- One state-mutating operation of the processor together with the accounts
and values it is invoked with (`Processor::process` dispatch, the stateless
`FactoryInitialize` aside).  Per-invocation data that varies between calls —
the presented accounts, signature flags and amounts — is carried by the
constructor; the clock reading is passed to `stepOp` separately. -/
inductive Op
  | init (program_id escrow_key : Pubkey) (factory : Factory)
      (token_mint_key token_account_key : Pubkey) (token_account : TokenAccount)
      (launcher_key canceler_key canceler_token_account_key : Pubkey)
      (canceler_token_account : TokenAccount) (duration : Nat)
  | setup (handler : Handler)
      (reputation_oracle_key reputation_oracle_token_account_key : Pubkey)
      (reputation_oracle_token_account : TokenAccount)
      (recording_oracle_key recording_oracle_token_account_key : Pubkey)
      (recording_oracle_token_account : TokenAccount)
      (reputation_oracle_stake recording_oracle_stake : Nat)
      (manifest_url manifest_hash : List Nat)
  | storeResults (handler : Handler) (final_results_url final_results_hash : List Nat)
  | storeAmounts (handler : Handler) (total_amount total_recipients : Nat)
  | payout (program_id escrow_key : Pubkey) (handler : Handler)
      (token_account_key authority_key recipient_token_account_key
        reputation_oracle_token_account_key recording_oracle_token_account_key : Pubkey)
      (token_account : TokenAccount) (amount : Nat)
  | cancel (program_id escrow_key : Pubkey) (handler : Handler)
      (token_account_key authority_key canceler_token_account_key : Pubkey)
      (token_account : TokenAccount)
  | complete (handler : Handler)

/-- Applying one operation to the escrow record at time `now`: the record the
processor re-encodes on success (for `Payout` and `Cancel`, with the issued
transfers dropped). -/
def stepOp (escrow : Escrow) (op : Op) (now : Int) : Except ProgramError Escrow :=
  match op with
  | .init program_id escrow_key factory token_mint_key token_account_key token_account
      launcher_key canceler_key canceler_token_account_key canceler_token_account duration =>
    process_initialize program_id escrow_key escrow factory now token_mint_key
      token_account_key token_account launcher_key canceler_key canceler_token_account_key
      canceler_token_account duration
  | .setup handler rep_key rep_tok_key rep_tok rec_key rec_tok_key rec_tok r c url hash =>
    process_setup escrow now handler rep_key rep_tok_key rep_tok rec_key rec_tok_key rec_tok
      r c url hash
  | .storeResults handler url hash => process_store_results escrow now handler url hash
  | .storeAmounts handler total_amount total_recipients =>
    process_store_amounts escrow now handler total_amount total_recipients
  | .payout program_id escrow_key handler token_account_key authority_key recipient_key
      rep_tok_key rec_tok_key token_account amount =>
    Except.map Prod.fst (process_payout program_id escrow_key escrow now handler
      token_account_key authority_key recipient_key rep_tok_key rec_tok_key
      token_account amount)
  | .cancel program_id escrow_key handler token_account_key authority_key
      canceler_token_key token_account =>
    Except.map Prod.fst (process_cancel program_id escrow_key escrow handler
      token_account_key authority_key canceler_token_key token_account)
  | .complete handler => process_complete escrow now handler

/-- The account an operation presents as its invoking party (`Initialize`
presents none: it has no signer check). -/
def Op.handlerOf : Op → Option Handler
  | .init _ _ _ _ _ _ _ _ _ _ _ => none
  | .setup handler _ _ _ _ _ _ _ _ _ _ => some handler
  | .storeResults handler _ _ => some handler
  | .storeAmounts handler _ _ => some handler
  | .payout _ _ handler _ _ _ _ _ _ _ => some handler
  | .cancel _ _ handler _ _ _ _ => some handler
  | .complete handler => some handler

/-- Whether the operation goes through `get_escrow_with_state_check` and so
compares the clock against `expires` (`Initialize` computes `expires` instead,
`Cancel` reads no clock at all). -/
def Op.checksExpiry : Op → Bool
  | .setup _ _ _ _ _ _ _ _ _ _ _ => true
  | .storeResults _ _ _ => true
  | .storeAmounts _ _ _ => true
  | .payout _ _ _ _ _ _ _ _ _ _ => true
  | .complete _ => true
  | .init _ _ _ _ _ _ _ _ _ _ _ => false
  | .cancel _ _ _ _ _ _ _ => false

/-- Whether the operation is `StoreFinalAmounts`. -/
def Op.isStoreAmounts : Op → Bool
  | .storeAmounts _ _ _ => true
  | _ => false

/-- The allowed-state set an operation passes to
`get_escrow_with_state_check` (`Initialize` and `Cancel` check differently). -/
def Op.allowedStates : Op → List EscrowState
  | .setup _ _ _ _ _ _ _ _ _ _ _ => [.Launched]
  | .storeResults _ _ _ => [.Pending, .Partial]
  | .storeAmounts _ _ _ => [.Pending, .Partial]
  | .payout _ _ _ _ _ _ _ _ _ _ => [.Pending, .Partial]
  | .complete _ => [.Paid]
  | .init _ _ _ _ _ _ _ _ _ _ _ => []
  | .cancel _ _ _ _ _ _ _ => []

/-- The keys `check_trusted_handler` accepts on this record. -/
def trustedHandlerKeys (e : Escrow) : List Pubkey :=
  [e.launcher, e.canceler] ++ e.reputation_oracle.toList ++ e.recording_oracle.toList

/-- The records reachable from a never-initialized record (state
`Uninitialized`, the other fields arbitrary account bytes) by successful
operations. -/
inductive Reachable : Escrow → Prop
  | base (e : Escrow) : e.state = EscrowState.Uninitialized → Reachable e
  | step (e : Escrow) (op : Op) (now : Int) (e2 : Escrow) :
      Reachable e → stepOp e op now = .ok e2 → Reachable e2

/-- `URL_LEN` of `state.rs`: byte size of a `DataUrl`. -/
def URL_LEN : Nat := 256

/-- `n.to_le_bytes()` for a `w`-byte integer: `w` little-endian base-256
digits. -/
def natToLe (w n : Nat) : List Nat :=
  match w with
  | 0 => []
  | w1 + 1 => n % 256 :: natToLe w1 (n / 256)

/-- `uNN::from_le_bytes`: the value of a little-endian digit list. -/
def leToNat : List Nat → Nat
  | [] => 0
  | b :: rest => b + 256 * leToNat rest

/-- The wire format of `instruction.rs` (`EscrowInstruction`): this revision
has exactly six variants, tags 1–6, with `StoreResults` carrying the payout
totals.  `u8` and `u64` fields are `Nat`s, `DataUrl` / `DataHash` fields are
their byte lists. -/
inductive EscrowInstruction
  | Initialize (duration : Nat)
  | Setup (reputation_oracle_stake recording_oracle_stake : Nat)
      (manifest_url manifest_hash : List Nat)
  | StoreResults (total_amount total_recipients : Nat)
      (final_results_url final_results_hash : List Nat)
  | Payout (amount : Nat)
  | Cancel
  | Complete
deriving DecidableEq, Repr

/-- The values an `EscrowInstruction` can actually hold in Rust: `u8` and
`u64` fields in range, a 256-byte URL buffer, a 20-byte hash. -/
def EscrowInstruction.Wf : EscrowInstruction → Prop
  | .Initialize duration => duration < U64MOD
  | .Setup r c url hash => r < 256 ∧ c < 256 ∧ url.length = URL_LEN ∧ hash.length = 20
  | .StoreResults a n url hash => a < U64MOD ∧ n < U64MOD ∧ url.length = URL_LEN ∧ hash.length = 20
  | .Payout amount => amount < U64MOD
  | .Cancel => True
  | .Complete => True

/-- `EscrowInstruction::pack`: one-byte tag, then the variant's fields in
order, integers little-endian. -/
def EscrowInstruction.pack : EscrowInstruction → List Nat
  | .Initialize duration => 1 :: natToLe 8 duration
  | .Setup r c url hash => 2 :: r :: c :: (url ++ hash)
  | .StoreResults a n url hash => 3 :: (natToLe 8 a ++ natToLe 8 n ++ url ++ hash)
  | .Payout amount => 4 :: natToLe 8 amount
  | .Cancel => [5]
  | .Complete => [6]

/-- `EscrowInstruction::unpack_u8`. -/
def unpack_u8 (input : List Nat) : Except ProgramError (Nat × List Nat) :=
  match input with
  | [] => .error ProgramError.InvalidInstructionData
  | b :: rest => .ok (b, rest)

/-- `EscrowInstruction::unpack_u64`. -/
def unpack_u64 (input : List Nat) : Except ProgramError (Nat × List Nat) :=
  if 8 ≤ input.length then .ok (leToNat (input.take 8), input.drop 8)
  else .error ProgramError.InvalidInstructionData

/-- `EscrowInstruction::unpack_hash`. -/
def unpack_hash (input : List Nat) : Except ProgramError (List Nat × List Nat) :=
  if 20 ≤ input.length then .ok (input.take 20, input.drop 20)
  else .error ProgramError.InvalidInstructionData

/-- `EscrowInstruction::unpack_url`. -/
def unpack_url (input : List Nat) : Except ProgramError (List Nat × List Nat) :=
  if URL_LEN ≤ input.length then .ok (input.take URL_LEN, input.drop URL_LEN)
  else .error ProgramError.InvalidInstructionData

/-- `EscrowInstruction::unpack`: reads the tag, then exactly the bytes each
variant needs; trailing bytes are ignored, an unknown tag or missing bytes
fail with `InvalidInstructionData`. -/
def EscrowInstruction.unpack (input : List Nat) : Except ProgramError EscrowInstruction :=
  match input with
  | [] => .error ProgramError.InvalidInstructionData
  | tag :: rest =>
    if tag = 1 then
      match unpack_u64 rest with
      | .error e => .error e
      | .ok (duration, _) => .ok (.Initialize duration)
    else if tag = 2 then
      match unpack_u8 rest with
      | .error e => .error e
      | .ok (r, rest1) =>
        match unpack_u8 rest1 with
        | .error e => .error e
        | .ok (c, rest2) =>
          match unpack_url rest2 with
          | .error e => .error e
          | .ok (url, rest3) =>
            match unpack_hash rest3 with
            | .error e => .error e
            | .ok (hash, _) => .ok (.Setup r c url hash)
    else if tag = 3 then
      match unpack_u64 rest with
      | .error e => .error e
      | .ok (a, rest1) =>
        match unpack_u64 rest1 with
        | .error e => .error e
        | .ok (n, rest2) =>
          match unpack_url rest2 with
          | .error e => .error e
          | .ok (url, rest3) =>
            match unpack_hash rest3 with
            | .error e => .error e
            | .ok (hash, _) => .ok (.StoreResults a n url hash)
    else if tag = 4 then
      match unpack_u64 rest with
      | .error e => .error e
      | .ok (amount, _) => .ok (.Payout amount)
    else if tag = 5 then .ok .Cancel
    else if tag = 6 then .ok .Complete
    else .error ProgramError.InvalidInstructionData

/-- `Escrow::LEN` of `state.rs`: `420 + URL_LEN + URL_LEN` = 932 bytes. -/
def Escrow.LEN : Nat := 420 + URL_LEN + URL_LEN

/-- A fixed-offset segment of the record buffer (one field of the
`array_refs!` split in `Escrow::unpack_from_slice`). -/
def seg (input : List Nat) (off len : Nat) : List Nat :=
  (input.drop off).take len

/-- The byte at a fixed offset of the record buffer. -/
def byteAt (input : List Nat) (off : Nat) : Nat :=
  input.getD off 0

/-- `unpack_coption_key` of `state.rs`: 4-byte presence tag, then the 32-byte
key body; tags other than 0 and 1 fail with `InvalidAccountData`. -/
def unpack_coption_key (src : List Nat) : Except ProgramError (Option Pubkey) :=
  if src.take 4 = [0, 0, 0, 0] then .ok none
  else if src.take 4 = [1, 0, 0, 0] then .ok (some ⟨src.drop 4⟩)
  else .error ProgramError.InvalidAccountData

/-- An `i64` from 8 little-endian bytes, two's complement. -/
def leToInt64 (bs : List Nat) : Int :=
  if leToNat bs < 2 ^ 63 then (leToNat bs : Int) else (leToNat bs : Int) - (U64MOD : Int)

/-- `Escrow::unpack_from_slice`: reads every field at its fixed offset of the
932-byte layout (field order and widths from the `array_refs!` split:
8, 1, 32, 32, 36, 36, 1, 36, 36, 1, 32, 32, 32, 8, 8, 8, 8, 1, 32, 256, 20,
256, 20). -/
def Escrow.unpack_from_slice (input : List Nat) : Except ProgramError Escrow :=
  match unpack_coption_key (seg input 73 36) with
  | .error e => .error e
  | .ok reputation_oracle =>
    match unpack_coption_key (seg input 109 36) with
    | .error e => .error e
    | .ok reputation_oracle_token_account =>
      match unpack_coption_key (seg input 146 36) with
      | .error e => .error e
      | .ok recording_oracle =>
        match unpack_coption_key (seg input 182 36) with
        | .error e => .error e
        | .ok recording_oracle_token_account =>
          match EscrowState.try_from_primitive (byteAt input 347) with
          | .error e => .error e
          | .ok state => .ok {
              state := state
              factory := ⟨seg input 348 32⟩
              expires := leToInt64 (seg input 0 8)
              bump_seed := byteAt input 8
              token_mint := ⟨seg input 9 32⟩
              token_account := ⟨seg input 41 32⟩
              reputation_oracle := reputation_oracle
              reputation_oracle_token_account := reputation_oracle_token_account
              reputation_oracle_stake := byteAt input 145
              recording_oracle := recording_oracle
              recording_oracle_token_account := recording_oracle_token_account
              recording_oracle_stake := byteAt input 218
              launcher := ⟨seg input 219 32⟩
              canceler := ⟨seg input 251 32⟩
              canceler_token_account := ⟨seg input 283 32⟩
              total_amount := leToNat (seg input 315 8)
              total_recipients := leToNat (seg input 323 8)
              sent_amount := leToNat (seg input 331 8)
              sent_recipients := leToNat (seg input 339 8)
              manifest_url := seg input 380 URL_LEN
              manifest_hash := seg input 636 20
              final_results_url := seg input 656 URL_LEN
              final_results_hash := seg input 912 20 }

/-- `Pack::unpack_unchecked` for `Escrow` — the provided method of the
`solana_program::program_pack::Pack` trait (library code, the program's only
entry into record decoding): rejects a buffer whose length differs from
`Escrow::LEN` with `InvalidAccountData`, then delegates to
`Escrow::unpack_from_slice`. -/
def Escrow.unpack_unchecked (input : List Nat) : Except ProgramError Escrow :=
  if input.length ≠ Escrow.LEN then .error ProgramError.InvalidAccountData
  else Escrow.unpack_from_slice input

/-! ## Helper lemmas about the common checks -/

theorem check_trusted_handler_unauthorized {escrow : Escrow} {handler : Handler}
    (hsig : handler.is_signer = true)
    (hkey : handler.key ∉ trustedHandlerKeys escrow) :
    check_trusted_handler escrow handler = .error (EscrowError.UnauthorizedSigner.toProgram) := by
  have h1 : handler.key ≠ escrow.launcher := by
    intro habs; exact hkey (by simp [trustedHandlerKeys, habs])
  have h2 : handler.key ≠ escrow.canceler := by
    intro habs; exact hkey (by simp [trustedHandlerKeys, habs])
  have hrep : escrow.reputation_oracle ≠ some handler.key := by
    intro habs; exact hkey (by simp [trustedHandlerKeys, habs])
  have hrec : escrow.recording_oracle ≠ some handler.key := by
    intro habs; exact hkey (by simp [trustedHandlerKeys, habs])
  unfold check_trusted_handler
  simp [hsig, h1, h2, hrep, hrec]

theorem getCheck_ok {escrow e2 : Escrow} {now : Int} {handler : Handler}
    {allowed : List EscrowState}
    (hok : get_escrow_with_state_check escrow now handler allowed = .ok e2) :
    e2 = escrow ∧ escrow.state ≠ .Uninitialized ∧ allowed.contains escrow.state = true
      ∧ ¬ (escrow.expires < now) := by
  unfold get_escrow_with_state_check at hok
  by_cases h1 : escrow.is_initialized = false
  · rw [if_pos h1] at hok; cases hok
  rw [if_neg h1] at hok
  by_cases h2 : escrow.expires < now
  · rw [if_pos h2] at hok; cases hok
  rw [if_neg h2] at hok
  by_cases h3 : allowed.contains escrow.state = false
  · rw [if_pos h3] at hok; cases hok
  rw [if_neg h3] at hok
  cases hth : check_trusted_handler escrow handler with
  | error e => rw [hth] at hok; cases hok
  | ok u =>
    rw [hth] at hok
    cases hok
    have hcontains : allowed.contains escrow.state = true := by
      cases hb : allowed.contains escrow.state with
      | false => exact absurd hb h3
      | true => rfl
    have hinit : escrow.state ≠ EscrowState.Uninitialized := by
      simp [Escrow.is_initialized] at h1
      exact h1
    exact ⟨rfl, hinit, hcontains, h2⟩

theorem getCheck_expired {escrow : Escrow} {now : Int} {handler : Handler}
    {allowed : List EscrowState}
    (hinit : escrow.state ≠ .Uninitialized) (hexp : escrow.expires < now) :
    get_escrow_with_state_check escrow now handler allowed =
      .error (EscrowError.EscrowExpired.toProgram) := by
  unfold get_escrow_with_state_check
  rw [if_neg (by simp [Escrow.is_initialized, hinit]), if_pos hexp]

theorem getCheck_unauthorized {escrow : Escrow} {now : Int} {handler : Handler}
    {allowed : List EscrowState}
    (hinit : escrow.state ≠ .Uninitialized) (hexp : ¬ (escrow.expires < now))
    (hstate : allowed.contains escrow.state = true)
    (hsig : handler.is_signer = true) (hkey : handler.key ∉ trustedHandlerKeys escrow) :
    get_escrow_with_state_check escrow now handler allowed =
      .error (EscrowError.UnauthorizedSigner.toProgram) := by
  unfold get_escrow_with_state_check
  rw [if_neg (by simp [Escrow.is_initialized, hinit]), if_neg hexp,
    if_neg (by rw [hstate]; simp), check_trusted_handler_unauthorized hsig hkey]

/-! ## Success characterization of each operation -/

theorem process_initialize_ok {program_id escrow_key : Pubkey} {escrow : Escrow}
    {factory : Factory} {now : Int} {token_mint_key token_account_key : Pubkey}
    {token_account : TokenAccount} {launcher_key canceler_key canceler_token_account_key : Pubkey}
    {canceler_token_account : TokenAccount} {duration : Nat} {e2 : Escrow}
    (hok : process_initialize program_id escrow_key escrow factory now token_mint_key
      token_account_key token_account launcher_key canceler_key canceler_token_account_key
      canceler_token_account duration = .ok e2) :
    escrow.state = .Uninitialized ∧ duration ≠ 0 ∧
    e2 = { Escrow.default with
      state := .Launched
      expires := now + (duration : Int)
      bump_seed := 255
      token_mint := token_mint_key
      token_account := token_account_key
      launcher := launcher_key
      canceler := canceler_key
      canceler_token_account := canceler_token_account_key } := by
  unfold process_initialize at hok
  by_cases h1 : escrow.is_initialized = true
  · rw [if_pos h1] at hok; cases hok
  rw [if_neg h1] at hok
  by_cases h2 : factory.is_initialized = false
  · rw [if_pos h2] at hok; cases hok
  rw [if_neg h2] at hok
  by_cases h3 : duration = 0
  · rw [if_pos h3] at hok; cases hok
  rw [if_neg h3] at hok
  simp only [find_authority_bump_seed] at hok
  by_cases h4 : token_account.owner ≠ authority_id program_id escrow_key 255
  · rw [if_pos h4] at hok; cases hok
  rw [if_neg h4] at hok
  by_cases h5 : token_account.mint ≠ token_mint_key
  · rw [if_pos h5] at hok; cases hok
  rw [if_neg h5] at hok
  by_cases h6 : canceler_token_account.mint ≠ token_mint_key
  · rw [if_pos h6] at hok; cases hok
  rw [if_neg h6] at hok
  cases hok
  refine ⟨?_, h3, rfl⟩
  simp [Escrow.is_initialized] at h1
  exact h1

theorem checked_add_u8_some {a b t : Nat} (h : checked_add_u8 a b = some t) :
    t = a + b ∧ a + b ≤ 255 := by
  unfold checked_add_u8 at h
  by_cases hle : a + b ≤ 255
  · rw [if_pos hle] at h
    cases h
    exact ⟨rfl, hle⟩
  · rw [if_neg hle] at h
    cases h

theorem process_setup_ok {escrow : Escrow} {now : Int} {handler : Handler}
    {rk rtk : Pubkey} {rta : TokenAccount} {ck ctk : Pubkey} {cta : TokenAccount}
    {r c : Nat} {url hash : List Nat} {e2 : Escrow}
    (hok : process_setup escrow now handler rk rtk rta ck ctk cta r c url hash = .ok e2) :
    escrow.state = .Launched ∧ 0 < r + c ∧ r + c ≤ 100 ∧
    e2 = { escrow with
      reputation_oracle := some rk
      reputation_oracle_token_account := some rtk
      reputation_oracle_stake := r
      recording_oracle := some ck
      recording_oracle_token_account := some ctk
      recording_oracle_stake := c
      manifest_url := url
      manifest_hash := hash
      state := .Pending } := by
  unfold process_setup at hok
  cases hget : get_escrow_with_state_check escrow now handler [.Launched] with
  | error e => rw [hget] at hok; cases hok
  | ok esc =>
    rw [hget] at hok
    obtain ⟨heq, hinit, hcontains, hexp⟩ := getCheck_ok hget
    rw [heq] at hok
    dsimp only at hok
    have hstate : escrow.state = EscrowState.Launched := by
      have : escrow.state ∈ [EscrowState.Launched] := by simpa using hcontains
      simpa using this
    cases hadd : checked_add_u8 r c with
    | none => rw [hadd] at hok; cases hok
    | some total =>
      rw [hadd] at hok
      dsimp only at hok
      obtain ⟨rfl, hle⟩ := checked_add_u8_some hadd
      by_cases hz : r + c = 0 ∨ 100 < r + c
      · rw [if_pos hz] at hok; cases hok
      rw [if_neg hz] at hok
      by_cases hm1 : rta.mint ≠ escrow.token_mint
      · rw [if_pos hm1] at hok; cases hok
      rw [if_neg hm1] at hok
      by_cases hm2 : cta.mint ≠ escrow.token_mint
      · rw [if_pos hm2] at hok; cases hok
      rw [if_neg hm2] at hok
      cases hok
      push_neg at hz
      exact ⟨hstate, Nat.pos_of_ne_zero hz.1, hz.2, rfl⟩

theorem process_store_results_ok {escrow : Escrow} {now : Int} {handler : Handler}
    {url hash : List Nat} {e2 : Escrow}
    (hok : process_store_results escrow now handler url hash = .ok e2) :
    (escrow.state = .Pending ∨ escrow.state = .Partial) ∧
    e2 = { escrow with final_results_url := url, final_results_hash := hash } := by
  unfold process_store_results at hok
  cases hget : get_escrow_with_state_check escrow now handler [.Pending, .Partial] with
  | error e => rw [hget] at hok; cases hok
  | ok esc =>
    rw [hget] at hok
    obtain ⟨heq, hinit, hcontains, hexp⟩ := getCheck_ok hget
    rw [heq] at hok
    cases hok
    refine ⟨?_, rfl⟩
    have : escrow.state ∈ [EscrowState.Pending, EscrowState.Partial] := by simpa using hcontains
    simpa using this

theorem process_store_amounts_ok {escrow : Escrow} {now : Int} {handler : Handler}
    {total_amount total_recipients : Nat} {e2 : Escrow}
    (hok : process_store_amounts escrow now handler total_amount total_recipients = .ok e2) :
    (escrow.state = .Pending ∨ escrow.state = .Partial) ∧
    e2 = { escrow with total_amount := total_amount, total_recipients := total_recipients } := by
  unfold process_store_amounts at hok
  cases hget : get_escrow_with_state_check escrow now handler [.Pending, .Partial] with
  | error e => rw [hget] at hok; cases hok
  | ok esc =>
    rw [hget] at hok
    obtain ⟨heq, hinit, hcontains, hexp⟩ := getCheck_ok hget
    rw [heq] at hok
    cases hok
    refine ⟨?_, rfl⟩
    have : escrow.state ∈ [EscrowState.Pending, EscrowState.Partial] := by simpa using hcontains
    simpa using this

theorem process_complete_ok {escrow : Escrow} {now : Int} {handler : Handler} {e2 : Escrow}
    (hok : process_complete escrow now handler = .ok e2) :
    escrow.state = .Paid ∧ e2 = { escrow with state := .Complete } := by
  unfold process_complete at hok
  cases hget : get_escrow_with_state_check escrow now handler [.Paid] with
  | error e => rw [hget] at hok; cases hok
  | ok esc =>
    rw [hget] at hok
    obtain ⟨heq, hinit, hcontains, hexp⟩ := getCheck_ok hget
    rw [heq] at hok
    cases hok
    refine ⟨?_, rfl⟩
    have : escrow.state ∈ [EscrowState.Paid] := by simpa using hcontains
    simpa using this

theorem process_cancel_ok {program_id escrow_key : Pubkey} {escrow : Escrow} {handler : Handler}
    {tak auk ctk : Pubkey} {token_account : TokenAccount} {e2 : Escrow} {ts : List (Pubkey × Nat)}
    (hok : process_cancel program_id escrow_key escrow handler tak auk ctk token_account
      = .ok (e2, ts)) :
    escrow.state ≠ .Uninitialized ∧ escrow.state ≠ .Complete ∧ escrow.state ≠ .Paid ∧
    e2 = { escrow with state := .Cancelled } := by
  unfold process_cancel at hok
  by_cases h1 : escrow.is_initialized = false
  · rw [if_pos h1] at hok; cases hok
  rw [if_neg h1] at hok
  by_cases h2 : escrow.state = EscrowState.Complete ∨ escrow.state = EscrowState.Paid
  · rw [if_pos h2] at hok; cases hok
  rw [if_neg h2] at hok
  cases hth : check_trusted_handler escrow handler with
  | error e => rw [hth] at hok; cases hok
  | ok u =>
    rw [hth] at hok
    by_cases h3 : tak ≠ escrow.token_account ∨ ctk ≠ escrow.canceler_token_account
        ∨ auk ≠ authority_id program_id escrow_key escrow.bump_seed
    · rw [if_pos h3] at hok; cases hok
    rw [if_neg h3] at hok
    by_cases h4 : token_account.amount = 0
    · rw [if_pos h4] at hok; cases hok
    rw [if_neg h4] at hok
    cases hok
    push_neg at h2
    refine ⟨?_, h2.1, h2.2, rfl⟩
    simp [Escrow.is_initialized] at h1
    exact h1

theorem process_payout_ok {program_id escrow_key : Pubkey} {escrow : Escrow} {now : Int}
    {handler : Handler} {tak auk rck rotk cotk : Pubkey} {token_account : TokenAccount}
    {amount : Nat} {e2 : Escrow} {ts : List (Pubkey × Nat)}
    (hok : process_payout program_id escrow_key escrow now handler tak auk rck rotk cotk
      token_account amount = .ok (e2, ts)) :
    (escrow.state = .Pending ∨ escrow.state = .Partial) ∧
    escrow.reputation_oracle_token_account = some rotk ∧
    escrow.recording_oracle_token_account = some cotk ∧
    (escrow.sent_amount + amount) % U64MOD ≤ escrow.total_amount ∧
    (escrow.sent_recipients + 1) % U64MOD ≤ escrow.total_recipients ∧
    ts = (if amount - oracle_fee_amount amount escrow.reputation_oracle_stake
              - oracle_fee_amount amount escrow.recording_oracle_stake ≠ 0 then
            [(rck, amount - oracle_fee_amount amount escrow.reputation_oracle_stake
              - oracle_fee_amount amount escrow.recording_oracle_stake)] else [])
      ++ (if oracle_fee_amount amount escrow.reputation_oracle_stake ≠ 0 then
            [(rotk, oracle_fee_amount amount escrow.reputation_oracle_stake)] else [])
      ++ (if oracle_fee_amount amount escrow.recording_oracle_stake ≠ 0 then
            [(cotk, oracle_fee_amount amount escrow.recording_oracle_stake)] else []) ∧
    e2 = { escrow with
      sent_amount := (escrow.sent_amount + amount) % U64MOD
      sent_recipients := (escrow.sent_recipients + 1) % U64MOD
      state := if (escrow.sent_recipients + 1) % U64MOD = escrow.total_recipients
          ∧ (escrow.sent_amount + amount) % U64MOD = escrow.total_amount
        then EscrowState.Paid else EscrowState.Partial } := by
  unfold process_payout at hok
  cases hget : get_escrow_with_state_check escrow now handler [.Pending, .Partial] with
  | error e => rw [hget] at hok; cases hok
  | ok esc =>
    rw [hget] at hok
    obtain ⟨heq, hinit, hcontains, hexp⟩ := getCheck_ok hget
    rw [heq] at hok
    dsimp only at hok
    by_cases h1 : tak ≠ escrow.token_account
    · rw [if_pos h1] at hok; cases hok
    rw [if_neg h1] at hok
    cases hrep : escrow.reputation_oracle_token_account with
    | none => rw [hrep] at hok; cases hok
    | some rep_tok =>
      rw [hrep] at hok
      dsimp only at hok
      by_cases h2 : rotk ≠ rep_tok
      · rw [if_pos h2] at hok; cases hok
      rw [if_neg h2] at hok
      push_neg at h2
      cases hrec : escrow.recording_oracle_token_account with
      | none => rw [hrec] at hok; cases hok
      | some rec_tok =>
        rw [hrec] at hok
        dsimp only at hok
        by_cases h3 : cotk ≠ rec_tok
        · rw [if_pos h3] at hok; cases hok
        rw [if_neg h3] at hok
        push_neg at h3
        by_cases h4 : auk ≠ authority_id program_id escrow_key escrow.bump_seed
        · rw [if_pos h4] at hok; cases hok
        rw [if_neg h4] at hok
        by_cases h5 : token_account.amount < amount
        · rw [if_pos h5] at hok; cases hok
        rw [if_neg h5] at hok
        by_cases h6 : escrow.total_amount < (escrow.sent_amount + amount) % U64MOD
            ∨ escrow.total_recipients < (escrow.sent_recipients + 1) % U64MOD
        · rw [if_pos h6] at hok; cases hok
        rw [if_neg h6] at hok
        push_neg at h6
        rw [Except.ok.injEq, Prod.mk.injEq] at hok
        obtain ⟨he2, hts⟩ := hok
        have hstate2 : escrow.state = EscrowState.Pending
            ∨ escrow.state = EscrowState.Partial := by
          have : escrow.state ∈ [EscrowState.Pending, EscrowState.Partial] := by
            simpa using hcontains
          simpa using this
        refine ⟨hstate2, ?_, ?_, h6.1, h6.2, ?_, (he2).symm⟩
        · rw [h2]
        · rw [h3]
        · rw [h2, h3]; exact hts.symm

deriving instance DecidableEq for Except

/-! ## Concrete fixtures used by witnesses and counterexamples -/

def kProgram : Pubkey := ⟨[0]⟩

def kEscrow : Pubkey := ⟨[1]⟩

def kMint : Pubkey := ⟨[2]⟩

def kTok : Pubkey := ⟨[3]⟩

def kLauncher : Pubkey := ⟨[4]⟩

def kCanceler : Pubkey := ⟨[5]⟩

def kCancelerTok : Pubkey := ⟨[6]⟩

def kRepOracle : Pubkey := ⟨[7]⟩

def kRepTok : Pubkey := ⟨[8]⟩

def kRecOracle : Pubkey := ⟨[9]⟩

def kRecTok : Pubkey := ⟨[10]⟩

def kRecipient : Pubkey := ⟨[11]⟩

def kOutsider : Pubkey := ⟨[12]⟩

def kAuthority : Pubkey := authority_id kProgram kEscrow 255

/-- The escrow custody token account: owned by the derived authority. -/
def taCustody : TokenAccount := { mint := kMint, owner := kAuthority, amount := 1000000000 }

def taCanceler : TokenAccount := { mint := kMint, owner := kCanceler, amount := 0 }

def taRep : TokenAccount := { mint := kMint, owner := kRepOracle, amount := 0 }

def taRec : TokenAccount := { mint := kMint, owner := kRecOracle, amount := 0 }

def launcherHandler : Handler := { key := kLauncher, is_signer := true }

/-- The record `Initialize(duration = 1000)` at `now = 0` writes. -/
def eLaunched : Escrow := { Escrow.default with
  state := .Launched
  expires := 1000
  bump_seed := 255
  token_mint := kMint
  token_account := kTok
  launcher := kLauncher
  canceler := kCanceler
  canceler_token_account := kCancelerTok }

/-- `eLaunched` after `Setup(5, 10)` and `StoreFinalAmounts(1000000, 1)`. -/
def ePending : Escrow := { eLaunched with
  state := .Pending
  reputation_oracle := some kRepOracle
  reputation_oracle_token_account := some kRepTok
  reputation_oracle_stake := 5
  recording_oracle := some kRecOracle
  recording_oracle_token_account := some kRecTok
  recording_oracle_stake := 10
  total_amount := 1000000
  total_recipients := 1 }

/-- `ePending` after `Payout(1000000)`. -/
def ePaid : Escrow := { ePending with
  sent_amount := 1000000
  sent_recipients := 1
  state := .Paid }

/-! ## C4: payout fee split -/

theorem transfer_sum (k : Pubkey) (v : Nat) :
    (List.map Prod.snd (if v ≠ 0 then [(k, v)] else [])).sum = v := by
  by_cases hv : v = 0 <;> simp [hv]

theorem oracle_fee_le (amount stake : Nat) :
    oracle_fee_amount amount stake ≤ amount * stake / 100 := by
  unfold oracle_fee_amount
  split
  · exact le_rfl
  · simp

theorem fee_sum_le (amount : Nat) {r c : Nat} (hrc : r + c ≤ 100) :
    oracle_fee_amount amount r + oracle_fee_amount amount c ≤ amount := by
  have h1 := oracle_fee_le amount r
  have h2 := oracle_fee_le amount c
  have h3 : amount * r / 100 + amount * c / 100 ≤ (amount * r + amount * c) / 100 :=
    Nat.add_div_le_add_div _ _ _
  have h4 : (amount * r + amount * c) / 100 ≤ amount := by
    rw [← Nat.mul_add]
    calc amount * (r + c) / 100 ≤ amount * 100 / 100 :=
          Nat.div_le_div_right (Nat.mul_le_mul_left _ hrc)
      _ = amount := Nat.mul_div_cancel _ (by norm_num)
  omega

/-- C4: for every successful `Payout(amount)` on an escrow whose stakes `r`
(reputation) and `c` (recording) satisfy `r + c ≤ 100`, the issued transfers
move exactly `amount` in total: with `reputation_fee = ⌊amount·r/100⌋` and
`recording_fee = ⌊amount·c/100⌋` (truncating division, the product saturating
to zero on `u64` overflow) and
`recipient_amount = amount - reputation_fee - recording_fee`, the three
computed transfer amounts sum back to `amount` — the zero transfers the code
skips contribute nothing. -/
theorem payout_fee_split {program_id escrow_key : Pubkey} {escrow : Escrow} {now : Int}
    {handler : Handler} {tak auk rck rotk cotk : Pubkey} {token_account : TokenAccount}
    {amount : Nat} {e2 : Escrow} {ts : List (Pubkey × Nat)}
    (hrc : escrow.reputation_oracle_stake + escrow.recording_oracle_stake ≤ 100)
    (hok : process_payout program_id escrow_key escrow now handler tak auk rck rotk cotk
      token_account amount = .ok (e2, ts)) :
    (ts.map Prod.snd).sum = amount := by
  obtain ⟨_, _, _, _, _, hts, _⟩ := process_payout_ok hok
  have hle := fee_sum_le amount hrc
  subst hts
  simp only [List.map_append, List.sum_append, transfer_sum]
  omega

theorem payout_fee_split_witness :
    (ePending.reputation_oracle_stake + ePending.recording_oracle_stake ≤ 100) ∧
    (([(kRecipient, 850000), (kRepTok, 50000), (kRecTok, 100000)].map Prod.snd).sum
      = 1000000) :=
  ⟨by decide, payout_fee_split (by decide)
    (show process_payout kProgram kEscrow ePending 0 launcherHandler kTok kAuthority
        kRecipient kRepTok kRecTok taCustody 1000000
      = .ok (ePaid, [(kRecipient, 850000), (kRepTok, 50000), (kRecTok, 100000)]) by decide)⟩

/-! ## C5: payout counter and state update -/

/-- C5: every successful `Payout(amount)` increments `sent_amount` by `amount`
and `sent_recipients` by one (`u64` wrap-around addition), leaves the totals
unchanged, and sets the state to `Paid` exactly when the new `sent_amount`
equals `total_amount` and the new `sent_recipients` equals
`total_recipients`, and to `Partial` otherwise. -/
theorem payout_updates_counters_and_state {program_id escrow_key : Pubkey} {escrow : Escrow}
    {now : Int} {handler : Handler} {tak auk rck rotk cotk : Pubkey}
    {token_account : TokenAccount} {amount : Nat} {e2 : Escrow} {ts : List (Pubkey × Nat)}
    (hok : process_payout program_id escrow_key escrow now handler tak auk rck rotk cotk
      token_account amount = .ok (e2, ts)) :
    e2.sent_amount = (escrow.sent_amount + amount) % U64MOD ∧
    e2.sent_recipients = (escrow.sent_recipients + 1) % U64MOD ∧
    e2.total_amount = escrow.total_amount ∧
    e2.total_recipients = escrow.total_recipients ∧
    (e2.state = .Paid ∨ e2.state = .Partial) ∧
    (e2.state = .Paid ↔
      (e2.sent_amount = e2.total_amount ∧ e2.sent_recipients = e2.total_recipients)) := by
  obtain ⟨_, _, _, _, _, _, he2⟩ := process_payout_ok hok
  subst he2
  refine ⟨rfl, rfl, rfl, rfl, ?_, ?_⟩
  · by_cases hc : (escrow.sent_recipients + 1) % U64MOD = escrow.total_recipients
        ∧ (escrow.sent_amount + amount) % U64MOD = escrow.total_amount
    · left; simp [hc]
    · right; simp [hc]
  · by_cases hc : (escrow.sent_recipients + 1) % U64MOD = escrow.total_recipients
        ∧ (escrow.sent_amount + amount) % U64MOD = escrow.total_amount
    · simp [hc]
    · simp only [if_neg hc]
      constructor
      · intro habs; cases habs
      · intro habs
        exact absurd ⟨habs.2, habs.1⟩ hc

theorem payout_updates_counters_and_state_witness :
    ePaid.sent_amount = (ePending.sent_amount + 1000000) % U64MOD ∧
    ePaid.sent_recipients = (ePending.sent_recipients + 1) % U64MOD ∧
    ePaid.total_amount = ePending.total_amount ∧
    ePaid.total_recipients = ePending.total_recipients ∧
    (ePaid.state = .Paid ∨ ePaid.state = .Partial) ∧
    (ePaid.state = .Paid ↔
      (ePaid.sent_amount = ePaid.total_amount ∧ ePaid.sent_recipients = ePaid.total_recipients)) :=
  payout_updates_counters_and_state
    (show process_payout kProgram kEscrow ePending 0 launcherHandler kTok kAuthority
        kRecipient kRepTok kRecTok taCustody 1000000
      = .ok (ePaid, [(kRecipient, 850000), (kRepTok, 50000), (kRecTok, 100000)]) by decide)

/-! ## C9: record unpack rejects wrong buffer lengths -/

/-- C9: unpacking an `Escrow` record from a buffer whose length differs from
the fixed record length `Escrow::LEN = 932` fails deterministically with
`InvalidAccountData`; no record value is produced (and the embedding is a
total function, so no panic is possible). -/
theorem escrow_unpack_rejects_wrong_length (input : List Nat) (hlen : input.length ≠ 932) :
    Escrow.unpack_unchecked input = .error ProgramError.InvalidAccountData := by
  unfold Escrow.unpack_unchecked
  rw [if_pos]
  show input.length ≠ Escrow.LEN
  simpa [Escrow.LEN, URL_LEN] using hlen

theorem escrow_unpack_rejects_wrong_length_witness :
    (([] : List Nat).length ≠ 932) ∧
    Escrow.unpack_unchecked [] = .error ProgramError.InvalidAccountData :=
  ⟨by decide, escrow_unpack_rejects_wrong_length [] (by decide)⟩

theorem except_map_ok {ε α β : Type} {f : α → β} {x : Except ε α} {b : β}
    (h : Except.map f x = .ok b) : ∃ a, x = .ok a ∧ f a = b := by
  cases x with
  | error e => simp [Except.map] at h
  | ok a =>
    refine ⟨a, rfl, ?_⟩
    simpa [Except.map] using h

/-! ## C7: Complete and Cancelled are terminal -/

/-- C7: `Complete` and `Cancelled` are terminal — no successful operation on a
record in either state ever changes the stored state (from `Cancelled` only
`Cancel` can succeed again and it rewrites `Cancelled`; from `Complete`
nothing succeeds) — and `Cancel` invoked on a `Complete` or `Paid` record
fails with `WrongState`. -/
theorem terminal_states :
    (∀ (e : Escrow) (op : Op) (now : Int) (e2 : Escrow),
      (e.state = EscrowState.Complete ∨ e.state = EscrowState.Cancelled) →
      stepOp e op now = .ok e2 → e2.state = e.state) ∧
    (∀ (program_id escrow_key : Pubkey) (e : Escrow) (handler : Handler)
      (tak auk ctk : Pubkey) (token_account : TokenAccount),
      (e.state = EscrowState.Complete ∨ e.state = EscrowState.Paid) →
      process_cancel program_id escrow_key e handler tak auk ctk token_account
        = .error (EscrowError.WrongState.toProgram)) := by
  constructor
  · intro e op now e2 hterm hok
    cases op with
    | init pid ekey f tmk tak ta lk ck ctk cta d =>
      simp only [stepOp] at hok
      obtain ⟨hs, _, _⟩ := process_initialize_ok hok
      rcases hterm with h | h <;> rw [h] at hs <;> cases hs
    | setup handler rk rtk rta ck2 ctk2 cta2 r c url hash =>
      simp only [stepOp] at hok
      obtain ⟨hs, _, _, _⟩ := process_setup_ok hok
      rcases hterm with h | h <;> rw [h] at hs <;> cases hs
    | storeResults handler url hash =>
      simp only [stepOp] at hok
      obtain ⟨hs, _⟩ := process_store_results_ok hok
      rcases hterm with h | h <;> rw [h] at hs <;> rcases hs with hs | hs <;> cases hs
    | storeAmounts handler ta tr =>
      simp only [stepOp] at hok
      obtain ⟨hs, _⟩ := process_store_amounts_ok hok
      rcases hterm with h | h <;> rw [h] at hs <;> rcases hs with hs | hs <;> cases hs
    | payout pid ekey handler tak auk rck rotk cotk ta amount =>
      simp only [stepOp] at hok
      obtain ⟨⟨p1, p2⟩, hx, hfst⟩ := except_map_ok hok
      obtain ⟨hs, _⟩ := process_payout_ok hx
      rcases hterm with h | h <;> rw [h] at hs <;> rcases hs with hs | hs <;> cases hs
    | cancel pid ekey handler tak auk ctk ta =>
      simp only [stepOp] at hok
      obtain ⟨⟨p1, p2⟩, hx, hfst⟩ := except_map_ok hok
      obtain ⟨_, hnc, _, he⟩ := process_cancel_ok hx
      rcases hterm with h | h
      · exact absurd h hnc
      · rw [h]
        rw [← hfst, he]
    | complete handler =>
      simp only [stepOp] at hok
      obtain ⟨hs, _⟩ := process_complete_ok hok
      rcases hterm with h | h <;> rw [h] at hs <;> cases hs
  · intro program_id escrow_key e handler tak auk ctk token_account hst
    have h1 : ¬ (e.is_initialized = false) := by
      rcases hst with h | h <;> simp [Escrow.is_initialized, h]
    unfold process_cancel
    rw [if_neg h1, if_pos hst]

def eCancelled : Escrow := { ePending with state := .Cancelled }

def eComplete : Escrow := { ePending with state := .Complete }

def opCancel : Op :=
  .cancel kProgram kEscrow launcherHandler kTok kAuthority kCancelerTok taCustody

theorem terminal_states_witness :
    ((eCancelled.state = EscrowState.Complete ∨ eCancelled.state = EscrowState.Cancelled) ∧
      eCancelled.state = eCancelled.state) ∧
    ((eComplete.state = EscrowState.Complete ∨ eComplete.state = EscrowState.Paid) ∧
      process_cancel kProgram kEscrow eComplete launcherHandler kTok kAuthority kCancelerTok
        taCustody = .error (EscrowError.WrongState.toProgram)) :=
  ⟨⟨Or.inr rfl,
    terminal_states.1 eCancelled opCancel 0 eCancelled (Or.inr rfl) (by decide)⟩,
   ⟨Or.inl rfl,
    terminal_states.2 kProgram kEscrow eComplete launcherHandler kTok kAuthority kCancelerTok
      taCustody (Or.inl rfl)⟩⟩

/-! ## C2: the sent-versus-total inequalities -/

/-- C2 (amended): `Initialize`, `Setup`, `StoreResults`, `Payout`, `Cancel`
and `Complete` preserve `sent_amount ≤ total_amount` and
`sent_recipients ≤ total_recipients` (`Initialize` establishes both at zero,
and `Payout` needs no precondition because its too-many-payouts check
compares exactly the values it stores).  `StoreFinalAmounts` is excluded: it
overwrites the totals without comparing them to the `sent_*` counters, so it
can falsify the inequalities on a reachable record. -/
theorem ops_preserve_sent_le_total {e : Escrow} {op : Op} {now : Int} {e2 : Escrow}
    (hop : op.isStoreAmounts = false) (hok : stepOp e op now = .ok e2)
    (h1 : e.sent_amount ≤ e.total_amount) (h2 : e.sent_recipients ≤ e.total_recipients) :
    e2.sent_amount ≤ e2.total_amount ∧ e2.sent_recipients ≤ e2.total_recipients := by
  cases op with
  | init pid ekey f tmk tak ta lk ck ctk cta d =>
    simp only [stepOp] at hok
    obtain ⟨_, _, he⟩ := process_initialize_ok hok
    subst he
    exact ⟨le_rfl, le_rfl⟩
  | setup handler rk rtk rta ck2 ctk2 cta2 r c url hash =>
    simp only [stepOp] at hok
    obtain ⟨_, _, _, he⟩ := process_setup_ok hok
    subst he
    exact ⟨h1, h2⟩
  | storeResults handler url hash =>
    simp only [stepOp] at hok
    obtain ⟨_, he⟩ := process_store_results_ok hok
    subst he
    exact ⟨h1, h2⟩
  | storeAmounts handler ta tr =>
    simp [Op.isStoreAmounts] at hop
  | payout pid ekey handler tak auk rck rotk cotk ta amount =>
    simp only [stepOp] at hok
    obtain ⟨⟨p1, p2⟩, hx, hfst⟩ := except_map_ok hok
    obtain ⟨_, _, _, hA, hR, _, he⟩ := process_payout_ok hx
    cases hfst
    subst he
    exact ⟨hA, hR⟩
  | cancel pid ekey handler tak auk ctk ta =>
    simp only [stepOp] at hok
    obtain ⟨⟨p1, p2⟩, hx, hfst⟩ := except_map_ok hok
    obtain ⟨_, _, _, he⟩ := process_cancel_ok hx
    cases hfst
    subst he
    exact ⟨h1, h2⟩
  | complete handler =>
    simp only [stepOp] at hok
    obtain ⟨_, he⟩ := process_complete_ok hok
    subst he
    exact ⟨h1, h2⟩

def opStoreResults : Op :=
  .storeResults launcherHandler (List.replicate 256 1) (List.replicate 20 1)

/-- `ePending` after the `opStoreResults` step. -/
def eStored : Escrow := { ePending with
  final_results_url := List.replicate 256 1
  final_results_hash := List.replicate 20 1 }

theorem ops_preserve_sent_le_total_witness :
    (opStoreResults.isStoreAmounts = false) ∧
    (ePending.sent_amount ≤ ePending.total_amount) ∧
    (eStored.sent_amount ≤ eStored.total_amount ∧
      eStored.sent_recipients ≤ eStored.total_recipients) :=
  ⟨rfl, by decide,
    ops_preserve_sent_le_total (by decide)
      (show stepOp ePending opStoreResults 0 = .ok eStored by decide)
      (by decide) (by decide)⟩

def opInit : Op :=
  .init kProgram kEscrow ⟨1⟩ kMint kTok taCustody kLauncher kCanceler kCancelerTok taCanceler 1000

def opSetup : Op :=
  .setup launcherHandler kRepOracle kRepTok taRep kRecOracle kRecTok taRec 5 10
    (List.replicate 256 0) (List.replicate 20 0)

def opStoreTen : Op := .storeAmounts launcherHandler 10 2

def opPayFive : Op :=
  .payout kProgram kEscrow launcherHandler kTok kAuthority kRecipient kRepTok kRecTok
    taCustody 5

def opStoreZero : Op := .storeAmounts launcherHandler 0 0

/-- A run of five successful operations from a fresh record:
Initialize, Setup, StoreFinalAmounts(10, 2), Payout(5),
StoreFinalAmounts(0, 0). -/
def traceC2 : Except ProgramError Escrow :=
  (stepOp Escrow.default opInit 0).bind fun e1 =>
  (stepOp e1 opSetup 0).bind fun e2 =>
  (stepOp e2 opStoreTen 0).bind fun e3 =>
  (stepOp e3 opPayFive 0).bind fun e4 =>
  stepOp e4 opStoreZero 0

/-- Whether a run ended successfully in a record with
`sent_amount > total_amount`. -/
def sentExceedsTotal : Except ProgramError Escrow → Bool
  | .ok e => decide (e.total_amount < e.sent_amount)
  | .error _ => false

/-- C2 is false as stated: the five-step run `traceC2` consists only of
successful operations, yet its final record stores `sent_amount = 5` and
`total_amount = 0` — the second `StoreFinalAmounts` lowered the totals below
the already-sent counters. -/
theorem store_amounts_breaks_sent_le_total : sentExceedsTotal traceC2 = true := by decide

/-! ## C3: expiry gate -/

/-- C3 (amended): for the operations that run the common checks (`Setup`,
`StoreResults`, `StoreFinalAmounts`, `Payout`, `Complete`) on an initialized
escrow, the operation fails with `EscrowExpired` exactly when `now` is
strictly past `expires` (`escrow.expires < now`); at the boundary
`now = expires` the check passes and the operation is not rejected for
expiry.  `Cancel` and `Initialize` never run this check (`Cancel` reads no
clock at all). -/
theorem expired_escrow_rejected {e : Escrow} {op : Op} {now : Int}
    (hch : op.checksExpiry = true) (hinit : e.state ≠ .Uninitialized)
    (hexp : e.expires < now) :
    stepOp e op now = .error (EscrowError.EscrowExpired.toProgram) := by
  cases op with
  | init pid ekey f tmk tak ta lk ck ctk cta d =>
    simp [Op.checksExpiry] at hch
  | cancel pid ekey handler tak auk ctk ta =>
    simp [Op.checksExpiry] at hch
  | setup handler rk rtk rta ck2 ctk2 cta2 r c url hash =>
    simp only [stepOp]
    unfold process_setup
    rw [getCheck_expired hinit hexp]
  | storeResults handler url hash =>
    simp only [stepOp]
    unfold process_store_results
    rw [getCheck_expired hinit hexp]
  | storeAmounts handler ta tr =>
    simp only [stepOp]
    unfold process_store_amounts
    rw [getCheck_expired hinit hexp]
  | payout pid ekey handler tak auk rck rotk cotk ta amount =>
    simp only [stepOp]
    unfold process_payout
    rw [getCheck_expired hinit hexp]
    rfl
  | complete handler =>
    simp only [stepOp]
    unfold process_complete
    rw [getCheck_expired hinit hexp]

theorem expired_escrow_rejected_witness :
    (opSetup.checksExpiry = true) ∧ (eLaunched.state ≠ .Uninitialized) ∧
    (eLaunched.expires < 2000) ∧
    stepOp eLaunched opSetup 2000 = .error (EscrowError.EscrowExpired.toProgram) :=
  ⟨rfl, by decide, by decide,
    expired_escrow_rejected rfl (by decide) (by decide)⟩

/-- Whether a processor run succeeded. -/
def runIsOk : Except ProgramError Escrow → Bool
  | .ok _ => true
  | .error _ => false

/-- C3 is false at the boundary: the check in
`get_escrow_with_state_check` is `escrow.expires < clock.unix_timestamp`, so
a `Setup` invoked at `now = expires = 1000` on an otherwise-valid `Launched`
escrow succeeds instead of failing with `EscrowExpired`. -/
theorem boundary_now_eq_expires_accepted :
    eLaunched.expires = 1000 ∧
    runIsOk (process_setup eLaunched 1000 launcherHandler kRepOracle kRepTok taRep
      kRecOracle kRecTok taRec 5 10 (List.replicate 256 0) (List.replicate 20 0)) = true := by
  exact ⟨by decide, by decide⟩

/-! ## C1: the trusted-handler authorization gate -/

/-- The state test each operation performs before its trusted-handler check:
the `allowedStates` membership for the five common-check operations, the
not-`Complete`-and-not-`Paid` test for `Cancel`, and no state under which
`Initialize` reaches a handler check (it has none). -/
def Op.stateOk (op : Op) (s : EscrowState) : Bool :=
  match op with
  | .init _ _ _ _ _ _ _ _ _ _ _ => false
  | .cancel _ _ _ _ _ _ _ => !(s == EscrowState.Complete || s == EscrowState.Paid)
  | _ => (op.allowedStates).contains s

/-- C1 (amended): for every state-mutating operation that presents an
invoking party — `Setup`, `StoreResults`, `StoreFinalAmounts`, `Payout`,
`Cancel` and `Complete`, but not `Initialize`, which performs no signer check
and can be invoked by anyone — if the earlier initialization, expiry and
state checks pass and the presented account has signed but is none of
{launcher, canceler, reputation_oracle (if set), recording_oracle (if set)},
the operation fails with `UnauthorizedSigner` (so the record is not
re-encoded and stays unchanged). -/
theorem mutating_ops_reject_unauthorized_signer {e : Escrow} {op : Op} {now : Int}
    {handler : Handler}
    (hh : op.handlerOf = some handler)
    (hinit : e.state ≠ .Uninitialized)
    (hexp : op.checksExpiry = true → ¬ (e.expires < now))
    (hstate : op.stateOk e.state = true)
    (hsig : handler.is_signer = true)
    (hkey : handler.key ∉ trustedHandlerKeys e) :
    stepOp e op now = .error (EscrowError.UnauthorizedSigner.toProgram) := by
  cases op with
  | init pid ekey f tmk tak ta lk ck ctk cta d =>
    simp [Op.stateOk] at hstate
  | setup h2 rk rtk rta ck2 ctk2 cta2 r c url hash =>
    simp only [Op.handlerOf, Option.some.injEq] at hh
    subst hh
    simp only [stepOp]
    unfold process_setup
    rw [getCheck_unauthorized hinit (hexp rfl) (by simpa [Op.stateOk, Op.allowedStates]
      using hstate) hsig hkey]
  | storeResults h2 url hash =>
    simp only [Op.handlerOf, Option.some.injEq] at hh
    subst hh
    simp only [stepOp]
    unfold process_store_results
    rw [getCheck_unauthorized hinit (hexp rfl) (by simpa [Op.stateOk, Op.allowedStates]
      using hstate) hsig hkey]
  | storeAmounts h2 ta tr =>
    simp only [Op.handlerOf, Option.some.injEq] at hh
    subst hh
    simp only [stepOp]
    unfold process_store_amounts
    rw [getCheck_unauthorized hinit (hexp rfl) (by simpa [Op.stateOk, Op.allowedStates]
      using hstate) hsig hkey]
  | payout pid ekey h2 tak auk rck rotk cotk ta amount =>
    simp only [Op.handlerOf, Option.some.injEq] at hh
    subst hh
    simp only [stepOp]
    unfold process_payout
    rw [getCheck_unauthorized hinit (hexp rfl) (by simpa [Op.stateOk, Op.allowedStates]
      using hstate) hsig hkey]
    rfl
  | cancel pid ekey h2 tak auk ctk ta =>
    simp only [Op.handlerOf, Option.some.injEq] at hh
    subst hh
    have hc : ¬ (e.state = EscrowState.Complete ∨ e.state = EscrowState.Paid) := by
      simp only [Op.stateOk] at hstate
      intro habs
      rcases habs with h | h <;> simp [h] at hstate
    simp only [stepOp]
    unfold process_cancel
    rw [if_neg (by simp [Escrow.is_initialized, hinit]), if_neg hc,
      check_trusted_handler_unauthorized hsig hkey]
    rfl
  | complete h2 =>
    simp only [Op.handlerOf, Option.some.injEq] at hh
    subst hh
    simp only [stepOp]
    unfold process_complete
    rw [getCheck_unauthorized hinit (hexp rfl) (by simpa [Op.stateOk, Op.allowedStates]
      using hstate) hsig hkey]

def outsiderHandler : Handler := { key := kOutsider, is_signer := true }

def opOutsiderStore : Op := .storeAmounts outsiderHandler 1 1

theorem mutating_ops_reject_unauthorized_signer_witness :
    (opOutsiderStore.handlerOf = some outsiderHandler) ∧
    (ePending.state ≠ .Uninitialized) ∧
    (outsiderHandler.is_signer = true) ∧
    (outsiderHandler.key ∉ trustedHandlerKeys ePending) ∧
    stepOp ePending opOutsiderStore 0 = .error (EscrowError.UnauthorizedSigner.toProgram) :=
  ⟨rfl, by decide, rfl, by decide,
    mutating_ops_reject_unauthorized_signer rfl (by decide) (fun _ => by decide)
      (by decide) rfl (by decide)⟩

/-- C1 is false as stated for `Initialize`: it is a state-mutating operation,
yet it presents no invoking party at all (no account of its account list is
required to sign), and on a fresh record — whose recorded launcher and
canceler are the zero key, matching none of the presented accounts — it
succeeds and rewrites the record instead of failing with
`UnauthorizedSigner`. -/
theorem initialize_mutates_without_signer :
    Op.handlerOf opInit = none ∧
    stepOp Escrow.default opInit 0 = .ok eLaunched ∧
    eLaunched ≠ Escrow.default := by
  exact ⟨rfl, by decide, by decide⟩

/-! ## C6: the Setup stake bounds -/

theorem getCheck_succeeds (allowed : List EscrowState) {escrow : Escrow} {now : Int}
    {handler : Handler}
    (hinit : escrow.state ≠ .Uninitialized) (hexp : ¬ (escrow.expires < now))
    (hstate : allowed.contains escrow.state = true)
    (hth : check_trusted_handler escrow handler = .ok ()) :
    get_escrow_with_state_check escrow now handler allowed = .ok escrow := by
  unfold get_escrow_with_state_check
  rw [if_neg (by simp [Escrow.is_initialized, hinit]), if_neg hexp,
    if_neg (by rw [hstate]; simp), hth]

/-- C6 (amended): on a `Launched`, unexpired escrow with an authorized signer,
`Setup` fails with `StakeOutOfBounds` when the stake sum is zero or lies in
(100, 255] — but a pair whose sum overflows the `u8` addition (sum > 255)
fails with `InvalidInstructionData` instead, from the `ok_or` on
`checked_add`; and `Setup` succeeds only when the sum lies in (0, 100].
Either failure happens before the record is re-encoded, so the escrow is
unchanged. -/
theorem setup_stake_bounds {e : Escrow} {now : Int} {handler : Handler}
    {rk rtk : Pubkey} {rta : TokenAccount} {ck ctk : Pubkey} {cta : TokenAccount}
    {r c : Nat} {url hash : List Nat} :
    (e.state = EscrowState.Launched → ¬ (e.expires < now) →
      check_trusted_handler e handler = .ok () →
      (((r + c = 0 ∨ (100 < r + c ∧ r + c ≤ 255)) →
        process_setup e now handler rk rtk rta ck ctk cta r c url hash
          = .error (EscrowError.StakeOutOfBounds.toProgram)) ∧
      (255 < r + c →
        process_setup e now handler rk rtk rta ck ctk cta r c url hash
          = .error ProgramError.InvalidInstructionData))) ∧
    (∀ e2, process_setup e now handler rk rtk rta ck ctk cta r c url hash = .ok e2 →
      0 < r + c ∧ r + c ≤ 100) := by
  constructor
  · intro hst hexp hth
    have hget := getCheck_succeeds [EscrowState.Launched]
      (by rw [hst]; decide) hexp (by rw [hst]; decide) hth
    constructor
    · intro hbad
      have h255 : r + c ≤ 255 := by
        rcases hbad with h | h
        · omega
        · exact h.2
      unfold process_setup
      rw [hget]
      dsimp only
      unfold checked_add_u8
      rw [if_pos h255]
      dsimp only
      rw [if_pos (by rcases hbad with h | h; exact Or.inl h; exact Or.inr h.1)]
    · intro hbad
      unfold process_setup
      rw [hget]
      dsimp only
      unfold checked_add_u8
      rw [if_neg (by omega)]
  · intro e2 hok
    obtain ⟨_, hpos, hle, _⟩ := process_setup_ok hok
    exact ⟨hpos, hle⟩

theorem setup_stake_bounds_witness :
    (eLaunched.state = EscrowState.Launched) ∧ (255 < 200 + 200) ∧
    process_setup eLaunched 0 launcherHandler kRepOracle kRepTok taRep kRecOracle kRecTok
      taRec 200 200 (List.replicate 256 0) (List.replicate 20 0)
      = .error ProgramError.InvalidInstructionData :=
  ⟨rfl, by decide,
    (setup_stake_bounds.1 rfl (by decide) (by decide)).2 (by decide)⟩

/-- C6 is false as stated for the overflow case: `Setup(200, 200)` on an
otherwise-valid `Launched` escrow overflows the `u8` stake addition and fails
with `InvalidInstructionData`, which is a different error than
`StakeOutOfBounds` (`Custom 258`). -/
theorem setup_stake_overflow_error_code :
    process_setup eLaunched 0 launcherHandler kRepOracle kRepTok taRep kRecOracle kRecTok
      taRec 200 200 (List.replicate 256 0) (List.replicate 20 0)
      = .error ProgramError.InvalidInstructionData ∧
    ProgramError.InvalidInstructionData ≠ EscrowError.StakeOutOfBounds.toProgram := by
  exact ⟨by decide, by decide⟩

/-! ## C8: instruction codec round-trip -/

theorem natToLe_length (w n : Nat) : (natToLe w n).length = w := by
  induction w generalizing n with
  | zero => rfl
  | succ w1 ih => simp [natToLe, ih]

theorem leToNat_natToLe {w n : Nat} (h : n < 256 ^ w) : leToNat (natToLe w n) = n := by
  induction w generalizing n with
  | zero =>
    simp only [natToLe, leToNat]
    omega
  | succ w1 ih =>
    have hdiv : n / 256 < 256 ^ w1 := by
      rw [Nat.div_lt_iff_lt_mul (by norm_num)]
      calc n < 256 ^ (w1 + 1) := h
        _ = 256 ^ w1 * 256 := by rw [pow_succ]
    simp only [natToLe, leToNat, ih hdiv]
    omega

theorem unpack_u64_append {n : Nat} (h : n < U64MOD) (rest : List Nat) :
    unpack_u64 (natToLe 8 n ++ rest) = .ok (n, rest) := by
  have hlen : (natToLe 8 n).length = 8 := natToLe_length 8 n
  have ht : (natToLe 8 n ++ rest).take 8 = natToLe 8 n := by
    rw [← hlen]; exact List.take_left _ _
  have hd : (natToLe 8 n ++ rest).drop 8 = rest := by
    rw [← hlen]; exact List.drop_left _ _
  have h8 : n < 256 ^ 8 := by
    have : (256 : Nat) ^ 8 = U64MOD := by norm_num [U64MOD]
    rw [this]; exact h
  unfold unpack_u64
  rw [if_pos (by simp [List.length_append, hlen]), ht, hd, leToNat_natToLe h8]

theorem unpack_u64_exact {n : Nat} (h : n < U64MOD) :
    unpack_u64 (natToLe 8 n) = .ok (n, []) := by
  have := unpack_u64_append h []
  simpa using this

theorem unpack_url_append {url : List Nat} (h : url.length = URL_LEN) (rest : List Nat) :
    unpack_url (url ++ rest) = .ok (url, rest) := by
  have ht : (url ++ rest).take URL_LEN = url := by
    rw [← h]; exact List.take_left _ _
  have hd : (url ++ rest).drop URL_LEN = rest := by
    rw [← h]; exact List.drop_left _ _
  unfold unpack_url
  rw [if_pos (by simp [List.length_append, h]), ht, hd]

theorem unpack_hash_exact {hash : List Nat} (h : hash.length = 20) :
    unpack_hash hash = .ok (hash, []) := by
  unfold unpack_hash
  rw [if_pos (by omega), List.take_of_length_le (by omega),
    List.drop_eq_nil_of_le (by omega)]

/-- C8: the instruction codec round-trips — for every value of the
six-variant `EscrowInstruction` type whose fields are in range (`u8`/`u64`
values, a 256-byte URL buffer, a 20-byte hash; boundary values such as stake
0 or 100, amount 0 or `u64::MAX`, a full URL and an all-zero hash included),
`unpack (pack x) = Ok(x)`. -/
theorem instruction_roundtrip (x : EscrowInstruction) (hwf : x.Wf) :
    EscrowInstruction.unpack (EscrowInstruction.pack x) = .ok x := by
  cases x with
  | Initialize d =>
    have h : d < U64MOD := hwf
    simp only [EscrowInstruction.pack, EscrowInstruction.unpack]
    rw [if_pos trivial, unpack_u64_exact h]
  | Setup r c url hash =>
    obtain ⟨h1, h2, hu, hh⟩ := hwf
    simp only [EscrowInstruction.pack, EscrowInstruction.unpack]
    rw [if_pos trivial]
    simp only [unpack_u8]
    rw [unpack_url_append hu]
    dsimp only
    rw [unpack_hash_exact hh]
    rfl
  | StoreResults a n url hash =>
    obtain ⟨h1, h2, hu, hh⟩ := hwf
    simp only [EscrowInstruction.pack, EscrowInstruction.unpack]
    rw [if_pos trivial]
    rw [List.append_assoc, List.append_assoc, unpack_u64_append h1]
    dsimp only
    rw [unpack_u64_append h2]
    dsimp only
    rw [unpack_url_append hu]
    dsimp only
    rw [unpack_hash_exact hh]
    rfl
  | Payout a =>
    have h : a < U64MOD := hwf
    simp only [EscrowInstruction.pack, EscrowInstruction.unpack]
    rw [if_pos trivial, unpack_u64_exact h]
    rfl
  | Cancel => decide
  | Complete => decide

theorem instruction_roundtrip_witness :
    (EscrowInstruction.Setup 0 100 (List.replicate 256 65) (List.replicate 20 0)).Wf ∧
    EscrowInstruction.unpack
      (EscrowInstruction.pack
        (EscrowInstruction.Setup 0 100 (List.replicate 256 65) (List.replicate 20 0)))
      = .ok (EscrowInstruction.Setup 0 100 (List.replicate 256 65) (List.replicate 20 0)) :=
  ⟨by constructor <;> simp [URL_LEN], instruction_roundtrip _
    (by constructor <;> simp [URL_LEN])⟩

/-! ## C10: reachable records have their oracles set past Setup -/

/-- All four oracle fields of the record are present. -/
def oraclesSet (e : Escrow) : Prop :=
  e.reputation_oracle.isSome = true ∧ e.reputation_oracle_token_account.isSome = true ∧
  e.recording_oracle.isSome = true ∧ e.recording_oracle_token_account.isSome = true

theorem reachable_oracles_set {e : Escrow} (hr : Reachable e) :
    (e.state = .Pending ∨ e.state = .Partial ∨ e.state = .Paid ∨ e.state = .Complete) →
    oraclesSet e := by
  induction hr with
  | base e0 h0 =>
    intro hst
    rw [h0] at hst
    rcases hst with h | h | h | h <;> cases h
  | step e0 op now e2 hr0 hstep ih =>
    intro hst
    cases op with
    | init pid ekey f tmk tak ta lk ck ctk cta d =>
      simp only [stepOp] at hstep
      obtain ⟨_, _, he⟩ := process_initialize_ok hstep
      subst he
      rcases hst with h | h | h | h <;> cases h
    | setup handler rk rtk rta ck2 ctk2 cta2 r c url hash =>
      simp only [stepOp] at hstep
      obtain ⟨_, _, _, he⟩ := process_setup_ok hstep
      subst he
      exact ⟨rfl, rfl, rfl, rfl⟩
    | storeResults handler url hash =>
      simp only [stepOp] at hstep
      obtain ⟨hs, he⟩ := process_store_results_ok hstep
      subst he
      exact ih (by rcases hs with h | h; exact Or.inl h; exact Or.inr (Or.inl h))
    | storeAmounts handler ta tr =>
      simp only [stepOp] at hstep
      obtain ⟨hs, he⟩ := process_store_amounts_ok hstep
      subst he
      exact ih (by rcases hs with h | h; exact Or.inl h; exact Or.inr (Or.inl h))
    | payout pid ekey handler tak auk rck rotk cotk ta amount =>
      simp only [stepOp] at hstep
      obtain ⟨⟨p1, p2⟩, hx, hfst⟩ := except_map_ok hstep
      obtain ⟨hs, _, _, _, _, _, he⟩ := process_payout_ok hx
      cases hfst
      subst he
      exact ih (by rcases hs with h | h; exact Or.inl h; exact Or.inr (Or.inl h))
    | cancel pid ekey handler tak auk ctk ta =>
      simp only [stepOp] at hstep
      obtain ⟨⟨p1, p2⟩, hx, hfst⟩ := except_map_ok hstep
      obtain ⟨_, _, _, he⟩ := process_cancel_ok hx
      cases hfst
      subst he
      rcases hst with h | h | h | h <;> cases h
    | complete handler =>
      simp only [stepOp] at hstep
      obtain ⟨hs, he⟩ := process_complete_ok hstep
      subst he
      exact ih (Or.inr (Or.inr (Or.inl hs)))

theorem check_trusted_handler_error_cases {escrow : Escrow} {handler : Handler}
    {err : ProgramError} (h : check_trusted_handler escrow handler = .error err) :
    err = ProgramError.MissingRequiredSignature
      ∨ err = EscrowError.UnauthorizedSigner.toProgram := by
  unfold check_trusted_handler at h
  split_ifs at h <;> cases h
  · exact Or.inl rfl
  · exact Or.inr rfl

theorem getCheck_error_cases {escrow : Escrow} {now : Int} {handler : Handler}
    {allowed : List EscrowState} {err : ProgramError}
    (h : get_escrow_with_state_check escrow now handler allowed = .error err) :
    err ≠ EscrowError.OracleNotInitialized.toProgram := by
  unfold get_escrow_with_state_check at h
  split_ifs at h
  · cases h; decide
  · cases h; decide
  · cases h; decide
  · cases hth : check_trusted_handler escrow handler with
    | error e1 =>
      rw [hth] at h
      cases h
      rcases check_trusted_handler_error_cases hth with h1 | h1 <;> rw [h1] <;> decide
    | ok u => rw [hth] at h; cases h

theorem payout_never_oracle_error {program_id escrow_key : Pubkey} {escrow : Escrow}
    {now : Int} {handler : Handler} {tak auk rck rotk cotk : Pubkey}
    {token_account : TokenAccount} {amount : Nat}
    (h1 : escrow.reputation_oracle_token_account.isSome = true)
    (h2 : escrow.recording_oracle_token_account.isSome = true) :
    process_payout program_id escrow_key escrow now handler tak auk rck rotk cotk
      token_account amount ≠ .error (EscrowError.OracleNotInitialized.toProgram) := by
  intro habs
  unfold process_payout at habs
  cases hget : get_escrow_with_state_check escrow now handler [.Pending, .Partial] with
  | error e =>
    rw [hget] at habs
    cases habs
    exact getCheck_error_cases hget rfl
  | ok esc =>
    rw [hget] at habs
    obtain ⟨heq, _, _, _⟩ := getCheck_ok hget
    rw [heq] at habs
    dsimp only at habs
    by_cases hA : tak ≠ escrow.token_account
    · rw [if_pos hA] at habs; exact absurd habs (by decide)
    rw [if_neg hA] at habs
    obtain ⟨v1, hv1⟩ := Option.isSome_iff_exists.mp h1
    rw [hv1] at habs
    dsimp only at habs
    by_cases hB : rotk ≠ v1
    · rw [if_pos hB] at habs; exact absurd habs (by decide)
    rw [if_neg hB] at habs
    obtain ⟨v2, hv2⟩ := Option.isSome_iff_exists.mp h2
    rw [hv2] at habs
    dsimp only at habs
    by_cases hC : cotk ≠ v2
    · rw [if_pos hC] at habs; exact absurd habs (by decide)
    rw [if_neg hC] at habs
    by_cases hD : auk ≠ authority_id program_id escrow_key escrow.bump_seed
    · rw [if_pos hD] at habs; exact absurd habs (by decide)
    rw [if_neg hD] at habs
    by_cases hE : token_account.amount < amount
    · rw [if_pos hE] at habs; exact absurd habs (by decide)
    rw [if_neg hE] at habs
    by_cases hF : escrow.total_amount < (escrow.sent_amount + amount) % U64MOD
        ∨ escrow.total_recipients < (escrow.sent_recipients + 1) % U64MOD
    · rw [if_pos hF] at habs; exact absurd habs (by decide)
    rw [if_neg hF] at habs
    cases habs

/-- C10: on every record reachable from an uninitialized one by successful
operations, whenever the state is `Pending`, `Partial`, `Paid` or `Complete`
all four oracle fields are present (`Setup` is the only door into these
states and stores all four); consequently `Payout` can never fail with
`OracleNotInitialized` on such a record. -/
theorem reachable_oracles_initialized (e : Escrow) (hr : Reachable e) :
    ((e.state = .Pending ∨ e.state = .Partial ∨ e.state = .Paid ∨ e.state = .Complete) →
      (e.reputation_oracle.isSome = true ∧ e.reputation_oracle_token_account.isSome = true ∧
       e.recording_oracle.isSome = true ∧ e.recording_oracle_token_account.isSome = true)) ∧
    (∀ (program_id escrow_key : Pubkey) (now : Int) (handler : Handler)
      (tak auk rck rotk cotk : Pubkey) (token_account : TokenAccount) (amount : Nat),
      process_payout program_id escrow_key e now handler tak auk rck rotk cotk
        token_account amount ≠ .error (EscrowError.OracleNotInitialized.toProgram)) := by
  constructor
  · exact reachable_oracles_set hr
  · intro program_id escrow_key now handler tak auk rck rotk cotk token_account amount habs
    cases hget : get_escrow_with_state_check e now handler [.Pending, .Partial] with
    | error err =>
      unfold process_payout at habs
      rw [hget] at habs
      cases habs
      exact getCheck_error_cases hget rfl
    | ok esc =>
      obtain ⟨heq, _, hcontains, _⟩ := getCheck_ok hget
      have hstate : e.state = EscrowState.Pending ∨ e.state = EscrowState.Partial := by
        have : e.state ∈ [EscrowState.Pending, EscrowState.Partial] := by simpa using hcontains
        simpa using this
      have hset := reachable_oracles_set hr
        (by rcases hstate with h | h; exact Or.inl h; exact Or.inr (Or.inl h))
      exact payout_never_oracle_error hset.2.1 hset.2.2.2 habs

theorem reachable_oracles_initialized_witness :
    process_payout kProgram kEscrow Escrow.default 0 launcherHandler kTok kAuthority
      kRecipient kRepTok kRecTok taCustody 5
      ≠ .error (EscrowError.OracleNotInitialized.toProgram) :=
  (reachable_oracles_initialized Escrow.default (Reachable.base Escrow.default rfl)).2
    kProgram kEscrow 0 launcherHandler kTok kAuthority kRecipient kRepTok kRecTok taCustody 5

end HumanEscrow
